import Mathlib

/-!
# Verification of the Xero-vs-Focus reconciliation app

Shallow embedding of `app.py` (the Streamlit reconciliation application):
the reconciliation core `reconcile_data`, the per-row explanation function
`generate_ai_reason`, the assistant `ask_bot`, and the WhatsApp summary
block.  Numeric cells are modelled as exact rationals (the Python code uses
floats), external services (OpenAI) as explicit oracle functions passed in,
and pandas DataFrames as column-name lists with rows of cell values.
Python string primitives (`str.strip`, `str.lower`, `str.replace`) are
modelled structurally over character lists.
-/

/-- Python `str.strip()`: drop whitespace from both ends. -/
def pyStrip (s : String) : String :=
  ⟨((s.data.dropWhile Char.isWhitespace).reverse.dropWhile Char.isWhitespace).reverse⟩

/-- Python `str.lower()` (ASCII case fold, as used on column names). -/
def pyLower (s : String) : String := ⟨s.data.map Char.toLower⟩

/-- Column-name normalization of `reconcile_data` lines 27–28:
`.str.strip().str.lower().str.replace(' ', '_')`. -/
def normName (s : String) : String :=
  ⟨(pyLower (pyStrip s)).data.map (fun c => if c = ' ' then '_' else c)⟩

/-- A Python cell value as it sits in a pandas column: an integer,
a float (modelled as an exact rational), or a string. -/
inductive Val where
  | intV : Int → Val
  | floatV : ℚ → Val
  | strV : String → Val
deriving Repr, DecidableEq

/-- Decimal expansion of the fractional part of a nonnegative rational,
with fuel (Python floats have terminating decimal expansions under
`str`). -/
def fracDigits : Nat → ℚ → String
  | 0, _ => ""
  | fuel + 1, q =>
    if q = 0 then ""
    else
      let d : Int := ⌊q * 10⌋
      toString d ++ fracDigits fuel (q * 10 - (d : ℚ))

/-- Python `str()` of a float: integral floats render with a trailing
`.0` (e.g. `str(1000.0) = "1000.0"`). -/
def pyFloatStr (q : ℚ) : String :=
  let a := |q|
  let ip : Int := ⌊a⌋
  let fs := fracDigits 17 (a - (ip : ℚ))
  (if q < 0 then "-" else "") ++ toString ip ++ "." ++ (if fs = "" then "0" else fs)

/-- Python `str()` applied to a cell value, as `astype(str)` does
elementwise. -/
def pyStr : Val → String
  | .intV n => toString n
  | .floatV q => pyFloatStr q
  | .strV s => s

/-- One well-formed input row, after column normalization: the raw key
cell (`account_code` for Xero, `gl_code` for Focus) plus numeric debit
and credit. -/
structure SrcRow where
  keyVal : Val
  debit : ℚ
  credit : ℚ
deriving Repr, DecidableEq

/-- The join key of a row: `astype(str).str.strip()` in
`reconcile_data` — the cell rendered by Python `str` and then
whitespace-stripped. -/
def keyOf (r : SrcRow) : String := pyStrip (pyStr r.keyVal)

/-- The list of join keys of a table. -/
def keysOf (A : List SrcRow) : List String := A.map keyOf

/-- One row of the merged DataFrame produced by `reconcile_data`:
both sides' debit/credit (absent side filled with 0 by `fillna(0)`),
the two differences, and the status string. -/
structure MergedRow where
  key : String
  debit_xero : ℚ
  credit_xero : ℚ
  debit_focus : ℚ
  credit_focus : ℚ
  debit_diff : ℚ
  credit_diff : ℚ
  status : String
deriving Repr, DecidableEq

/-- The Focus rows matching a given Xero row under the string key. -/
def matchesOf (B : List SrcRow) (a : SrcRow) : List SrcRow :=
  B.filter (fun b => keyOf b == keyOf a)

/-- `pd.merge(..., on='key', how='outer')` as a list of row pairs:
each left row paired with every key-equal right row (or with `none` when
unmatched), followed by the unmatched right rows. -/
def mergePairs (A B : List SrcRow) : List (Option SrcRow × Option SrcRow) :=
  (A.flatMap (fun a =>
    let ms := matchesOf B a
    if ms.isEmpty then [(some a, none)] else ms.map (fun b => (some a, some b))))
  ++ ((B.filter (fun b => A.all (fun a => !(keyOf a == keyOf b)))).map
       (fun b => ((none : Option SrcRow), some b)))

/-- Lines 32–35 of `app.py` applied to one merged row pair:
`fillna(0)`, `debit_diff`/`credit_diff`, and the status lambda
(`"Match" if abs(debit_diff) < 1 and abs(credit_diff) < 1 else
"Mismatch"`). -/
def classify (p : Option SrcRow × Option SrcRow) : MergedRow :=
  let k := match p.1, p.2 with
    | some a, _ => keyOf a
    | none, some b => keyOf b
    | none, none => ""
  let dx := match p.1 with | some a => a.debit | none => 0
  let cx := match p.1 with | some a => a.credit | none => 0
  let df := match p.2 with | some b => b.debit | none => 0
  let cf := match p.2 with | some b => b.credit | none => 0
  { key := k
    debit_xero := dx
    credit_xero := cx
    debit_focus := df
    credit_focus := cf
    debit_diff := dx - df
    credit_diff := cx - cf
    status := if |dx - df| < 1 ∧ |cx - cf| < 1 then "Match" else "Mismatch" }

/-- The row-level core of `reconcile_data`: outer merge on the string
key, fill absent sides with zero, compute the diffs and the status. -/
def reconcile_rows (A B : List SrcRow) : List MergedRow :=
  (mergePairs A B).map classify

/-- Every reconciled row is `classify` of some merged pair. -/
theorem mem_reconcile_rows {A B : List SrcRow} {r : MergedRow}
    (h : r ∈ reconcile_rows A B) :
    ∃ p ∈ mergePairs A B, r = classify p := by
  rcases List.mem_map.mp h with ⟨p, hp, he⟩
  exact ⟨p, hp, he.symm⟩

/-- The status of a classified row is determined by the diffs stored in
that same row. -/
theorem classify_status (p : Option SrcRow × Option SrcRow) :
    (classify p).status =
      if |(classify p).debit_diff| < 1 ∧ |(classify p).credit_diff| < 1
      then "Match" else "Mismatch" := by
  cases p with
  | mk a b => cases a <;> cases b <;> rfl

/-- C1. For every reconciled row, the status is `"Mismatch"` iff
`|debit_diff| ≥ 1` or `|credit_diff| ≥ 1`, and `"Match"` iff both
`|debit_diff| < 1` and `|credit_diff| < 1`, where
`debit_diff = debit_xero − debit_focus` and
`credit_diff = credit_xero − credit_focus`. -/
theorem tolerance_rule (A B : List SrcRow) (r : MergedRow)
    (h : r ∈ reconcile_rows A B) :
    (r.status = "Mismatch" ↔ (1 ≤ |r.debit_diff| ∨ 1 ≤ |r.credit_diff|))
    ∧ (r.status = "Match" ↔ (|r.debit_diff| < 1 ∧ |r.credit_diff| < 1)) := by
  rcases mem_reconcile_rows h with ⟨p, _, rfl⟩
  rw [classify_status]
  by_cases hc : |(classify p).debit_diff| < 1 ∧ |(classify p).credit_diff| < 1
  · rw [if_pos hc]
    refine ⟨⟨fun hs => absurd hs (by decide), fun h1 => ?_⟩, fun _ => hc, fun _ => rfl⟩
    rcases h1 with h1 | h1
    · exact absurd hc.1 (not_lt.mpr h1)
    · exact absurd hc.2 (not_lt.mpr h1)
  · rw [if_neg hc]
    refine ⟨⟨fun _ => ?_, fun _ => rfl⟩, fun hs => absurd hs (by decide), fun h1 => absurd h1 hc⟩
    rcases not_and_or.mp hc with h1 | h1
    · exact Or.inl (not_lt.mp h1)
    · exact Or.inr (not_lt.mp h1)

/-- Witness for C1: instantiated on a pair of single-row tables sharing
key `"2000"` with a debit difference of 20. -/
theorem tolerance_rule_witness :
    ((classify (some ⟨Val.strV "2000", 100, 0⟩, some ⟨Val.strV "2000", 80, 0⟩)).status = "Mismatch"
      ↔ (1 ≤ |(classify (some ⟨Val.strV "2000", 100, 0⟩, some ⟨Val.strV "2000", 80, 0⟩)).debit_diff|
          ∨ 1 ≤ |(classify (some ⟨Val.strV "2000", 100, 0⟩, some ⟨Val.strV "2000", 80, 0⟩)).credit_diff|)) :=
  (tolerance_rule [⟨Val.strV "2000", 100, 0⟩] [⟨Val.strV "2000", 80, 0⟩]
    (classify (some ⟨Val.strV "2000", 100, 0⟩, some ⟨Val.strV "2000", 80, 0⟩))
    (by simp [reconcile_rows, mergePairs, matchesOf, keyOf, pyStr, pyStrip])).1

/-- The join-key column of a merged pair. -/
def pairKey : Option SrcRow × Option SrcRow → String
  | (some a, _) => keyOf a
  | (none, some b) => keyOf b
  | (none, none) => ""

theorem classify_key (p : Option SrcRow × Option SrcRow) :
    (classify p).key = pairKey p := by
  rcases p with ⟨a, b⟩; cases a <;> cases b <;> rfl

theorem countP_flatMap {α β : Type} (l : List α) (f : α → List β) (q : β → Bool) :
    (l.flatMap f).countP q = (l.map (fun a => (f a).countP q)).sum := by
  induction l with
  | nil => rfl
  | cons a t ih => simp [List.flatMap_cons, List.countP_append, ih]

theorem length_matchesOf (B : List SrcRow) (a : SrcRow) :
    (matchesOf B a).length = (keysOf B).count (keyOf a) := by
  rw [matchesOf, ← List.countP_eq_length_filter, keysOf, List.count_eq_countP,
    List.countP_map]
  rfl

theorem all_ne_iff (A : List SrcRow) (b : SrcRow) :
    (A.all fun a => !(keyOf a == keyOf b)) = true ↔ keyOf b ∉ keysOf A := by
  rw [List.all_eq_true]
  constructor
  · rintro h hmem
    rcases List.mem_map.mp hmem with ⟨a, ha, hk⟩
    have h2 := h a ha
    rw [hk] at h2
    simp at h2
  · intro h a ha
    simp only [Bool.not_eq_true', beq_eq_false_iff_ne]
    intro he
    exact h (List.mem_map.mpr ⟨a, ha, he⟩)

/-- Characterization of the outer-merge pairs: matched pairs, left-only
rows, right-only rows. -/
theorem mem_mergePairs {A B : List SrcRow} {p : Option SrcRow × Option SrcRow} :
    p ∈ mergePairs A B ↔
      (∃ a ∈ A, matchesOf B a = [] ∧ p = (some a, none))
      ∨ (∃ a ∈ A, ∃ b ∈ B, keyOf b = keyOf a ∧ p = (some a, some b))
      ∨ (∃ b ∈ B, keyOf b ∉ keysOf A ∧ p = (none, some b)) := by
  constructor
  · intro h
    rcases List.mem_append.mp h with h | h
    · rcases List.mem_flatMap.mp h with ⟨a, ha, hp⟩
      by_cases he : (matchesOf B a).isEmpty
      · rw [if_pos he] at hp
        exact Or.inl ⟨a, ha, List.isEmpty_iff.mp he, List.mem_singleton.mp hp⟩
      · rw [if_neg he] at hp
        rcases List.mem_map.mp hp with ⟨b, hb, hpe⟩
        rcases List.mem_filter.mp hb with ⟨hbB, hk⟩
        exact Or.inr (Or.inl ⟨a, ha, b, hbB, eq_of_beq hk, hpe.symm⟩)
    · rcases List.mem_map.mp h with ⟨b, hb, hpe⟩
      rcases List.mem_filter.mp hb with ⟨hbB, hall⟩
      exact Or.inr (Or.inr ⟨b, hbB, (all_ne_iff A b).mp hall, hpe.symm⟩)
  · intro h
    rcases h with ⟨a, ha, hme, rfl⟩ | ⟨a, ha, b, hb, hk, rfl⟩ | ⟨b, hb, hnot, rfl⟩
    · refine List.mem_append_left _ (List.mem_flatMap.mpr ⟨a, ha, ?_⟩)
      simp [hme]
    · refine List.mem_append_left _ (List.mem_flatMap.mpr ⟨a, ha, ?_⟩)
      have hbm : b ∈ matchesOf B a := List.mem_filter.mpr ⟨hb, beq_iff_eq.mpr hk⟩
      rw [if_neg (by simpa [List.isEmpty_iff] using List.ne_nil_of_mem hbm)]
      exact List.mem_map.mpr ⟨b, hbm, rfl⟩
    · refine List.mem_append_right _ (List.mem_map.mpr ⟨b, ?_, rfl⟩)
      exact List.mem_filter.mpr ⟨hb, (all_ne_iff A b).mpr hnot⟩

theorem countP_perA (B : List SrcRow) (a : SrcRow) (k : String) :
    ((if (matchesOf B a).isEmpty then [((some a : Option SrcRow), (none : Option SrcRow))]
      else (matchesOf B a).map (fun b => (some a, some b))).countP (fun p => pairKey p == k))
    = if keyOf a == k
      then (if (matchesOf B a).isEmpty then 1 else (matchesOf B a).length) else 0 := by
  by_cases he : (matchesOf B a).isEmpty
  · rw [if_pos he, if_pos he]
    cases hk : (keyOf a == k)
    · simp [List.countP_cons, pairKey, hk]
    · simp [List.countP_cons, pairKey, hk]
  · rw [if_neg he, if_neg he, List.countP_map]
    cases hk : (keyOf a == k)
    · rw [if_neg (by simp)]
      rw [List.countP_eq_zero.mpr]
      intro b _
      simpa [pairKey] using hk
    · rw [if_pos rfl]
      calc List.countP ((fun p => pairKey p == k) ∘ fun b => ((some a : Option SrcRow), some b))
            (matchesOf B a)
          = (matchesOf B a).countP (fun _ => true) := List.countP_congr (by
            intro b _
            simpa [pairKey] using hk)
        _ = (matchesOf B a).length := congrFun List.countP_true (matchesOf B a)

theorem sum_if_key_countP (k : String) (c : SrcRow → ℕ) :
    ∀ l : List SrcRow, (∀ a ∈ l, keyOf a = k → c a = 1) →
      (l.map (fun a => if keyOf a == k then c a else 0)).sum
        = l.countP (fun a => keyOf a == k) := by
  intro l
  induction l with
  | nil => intro _; rfl
  | cons a t ih =>
    intro hc
    simp only [List.map_cons, List.sum_cons, List.countP_cons]
    rw [ih (fun b hb hbk => hc b (List.mem_cons_of_mem a hb) hbk)]
    by_cases ha : keyOf a = k
    · rw [if_pos (beq_iff_eq.mpr ha), if_pos (beq_iff_eq.mpr ha),
        hc a (List.mem_cons_self a t) ha]
      omega
    · rw [if_neg (by simp only [beq_iff_eq]; exact ha),
        if_neg (by simp only [beq_iff_eq]; exact ha)]
      omega

/-- The number of merged pairs carrying join key `k`, split by origin. -/
theorem countP_key_mergePairs (A B : List SrcRow) (k : String) :
    ((mergePairs A B).countP (fun p => pairKey p == k))
    = (A.map (fun a => if keyOf a == k
        then (if (matchesOf B a).isEmpty then 1 else (matchesOf B a).length) else 0)).sum
      + (B.countP (fun b => (keyOf b == k) && (A.all fun a => !(keyOf a == keyOf b)))) := by
  rw [mergePairs, List.countP_append, countP_flatMap]
  congr 1
  · apply congrArg
    apply List.map_congr_left
    intro a _
    exact countP_perA B a k
  · rw [List.countP_map, List.countP_filter]
    rfl

theorem length_mergePairs (A B : List SrcRow) (hB : (keysOf B).Nodup) :
    (mergePairs A B).length
      = A.length + B.countP (fun b => A.all fun a => !(keyOf a == keyOf b)) := by
  rw [mergePairs, List.length_append, List.length_flatMap]
  congr 1
  · calc (A.map (List.length ∘ fun a =>
          if (matchesOf B a).isEmpty then [((some a : Option SrcRow), (none : Option SrcRow))]
          else (matchesOf B a).map (fun b => (some a, some b)))).sum
        = (A.map fun _ => 1).sum := by
          apply congrArg
          apply List.map_congr_left
          intro a _
          by_cases hem : (matchesOf B a).isEmpty
          · have hme := List.isEmpty_iff.mp hem
            simp [hme]
          · simp only [Function.comp_apply, if_neg hem, List.length_map]
            have h1 := length_matchesOf B a
            have hmem : keyOf a ∈ keysOf B := by
              by_contra hn
              rw [List.count_eq_zero_of_not_mem hn] at h1
              exact hem (List.isEmpty_iff.mpr (List.length_eq_zero.mp h1))
            rw [h1]
            exact List.count_eq_one_of_mem hB hmem
      _ = A.length := by simp [List.map_const']
  · rw [List.length_map, ← List.countP_eq_length_filter]

/-- C3. With distinct keys within each input (well-formed tables), the
reconciled table has exactly one row per key in the union of the two key
sets. -/
theorem row_count (A B : List SrcRow)
    (hA : (keysOf A).Nodup) (hB : (keysOf B).Nodup) :
    (reconcile_rows A B).length
      = ((keysOf A).toFinset ∪ (keysOf B).toFinset).card := by
  rw [reconcile_rows, List.length_map, length_mergePairs A B hB]
  rw [show (keysOf A).toFinset ∪ (keysOf B).toFinset
      = (keysOf A).toFinset ∪ ((keysOf B).toFinset \ (keysOf A).toFinset) from
    (Finset.union_sdiff_self_eq_union).symm]
  rw [Finset.card_union_of_disjoint Finset.disjoint_sdiff]
  congr 1
  · rw [List.toFinset_card_of_nodup hA, keysOf, List.length_map]
  · have h1 : (B.countP fun b => A.all fun a => !(keyOf a == keyOf b))
        = (keysOf B).countP (fun s => decide (s ∉ keysOf A)) := by
      simp only [keysOf]
      rw [List.countP_map]
      apply List.countP_congr
      intro b _
      rw [all_ne_iff A b]
      simp [keysOf]
    rw [h1, List.countP_eq_length_filter,
      ← List.toFinset_card_of_nodup (hB.filter _), List.toFinset_filter]
    congr 1
    ext s
    simp only [Finset.mem_filter, Finset.mem_sdiff, List.mem_toFinset,
      decide_eq_true_eq]

/-- Witness for C3: two concrete tables, one shared key, one key only in
each side — three reconciled rows. -/
theorem row_count_witness :
    (reconcile_rows
        [⟨Val.strV "1000", 500, 0⟩, ⟨Val.strV "3000", 50, 0⟩]
        [⟨Val.strV "1000", 500, 0⟩, ⟨Val.strV "2000", 80, 0⟩]).length
      = ((keysOf [⟨Val.strV "1000", 500, 0⟩, ⟨Val.strV "3000", 50, 0⟩]).toFinset
          ∪ (keysOf [⟨Val.strV "1000", 500, 0⟩, ⟨Val.strV "2000", 80, 0⟩]).toFinset).card :=
  row_count _ _ (by decide) (by decide)

theorem countP_keyOf (B : List SrcRow) (k : String) :
    B.countP (fun b => keyOf b == k) = (keysOf B).count k := by
  rw [keysOf, List.count_eq_countP, List.countP_map]
  rfl

/-- C2 (amended). A key present in exactly one of the two inputs, and
occurring exactly once there, yields exactly one reconciled row; the
absent side's debit/credit are 0, and the diffs are the present side's
values when the key is Xero-only, and their negations when
Focus-only. -/
theorem single_side_row (A B : List SrcRow) (k : String)
    (hone : ((keysOf A).count k = 1 ∧ (keysOf B).count k = 0)
      ∨ ((keysOf A).count k = 0 ∧ (keysOf B).count k = 1)) :
    ((reconcile_rows A B).countP (fun r => r.key == k)) = 1
    ∧ ∀ r ∈ reconcile_rows A B, r.key = k →
        ((k ∉ keysOf B → r.debit_focus = 0 ∧ r.credit_focus = 0 ∧
          ∃ a ∈ A, keyOf a = k ∧ r.debit_xero = a.debit ∧ r.credit_xero = a.credit
            ∧ r.debit_diff = a.debit ∧ r.credit_diff = a.credit)
        ∧ (k ∉ keysOf A → r.debit_xero = 0 ∧ r.credit_xero = 0 ∧
          ∃ b ∈ B, keyOf b = k ∧ r.debit_focus = b.debit ∧ r.credit_focus = b.credit
            ∧ r.debit_diff = -b.debit ∧ r.credit_diff = -b.credit)) := by
  constructor
  · rw [reconcile_rows, List.countP_map]
    have hpk : ((fun r => MergedRow.key r == k) ∘ classify) = (fun p => pairKey p == k) := by
      funext p
      simp [Function.comp, classify_key]
    rw [hpk, countP_key_mergePairs]
    rcases hone with ⟨ha1, hb0⟩ | ⟨ha0, hb1⟩
    · have hnB : k ∉ keysOf B := List.count_eq_zero.mp hb0
      rw [sum_if_key_countP k _ A (by
          intro a ha hak
          have h0 : (matchesOf B a).length = 0 := by
            rw [length_matchesOf, hak]
            exact List.count_eq_zero_of_not_mem hnB
          rw [if_pos (List.isEmpty_iff.mpr (List.length_eq_zero.mp h0))]),
        countP_keyOf, ha1, List.countP_eq_zero.mpr, Nat.add_zero]
      intro b hb hcontra
      rw [Bool.and_eq_true] at hcontra
      exact hnB ((eq_of_beq hcontra.1) ▸ List.mem_map.mpr ⟨b, hb, rfl⟩)
    · have hnA : k ∉ keysOf A := List.count_eq_zero.mp ha0
      rw [sum_if_key_countP k _ A (fun a ha hak =>
          absurd (hak ▸ List.mem_map.mpr ⟨a, ha, rfl⟩) hnA),
        countP_keyOf, ha0, Nat.zero_add]
      have hcg : B.countP (fun b => (keyOf b == k) && (A.all fun a => !(keyOf a == keyOf b)))
          = B.countP (fun b => keyOf b == k) := by
        apply List.countP_congr
        intro b _
        cases hkey : (keyOf b == k)
        · simp
        · simp only [Bool.true_and]
          exact iff_of_true ((all_ne_iff A b).mpr (by rw [eq_of_beq hkey]; exact hnA)) trivial
      rw [hcg, countP_keyOf, hb1]
  · intro r hr hrk
    rcases mem_reconcile_rows hr with ⟨p, hp, rfl⟩
    rcases mem_mergePairs.mp hp with ⟨a, ha, hme, rfl⟩ | ⟨a, ha, b, hb, hkab, rfl⟩ | ⟨b, hb, hnb, rfl⟩
    · have hknt : keyOf a = k := by simpa [classify_key, pairKey] using hrk
      constructor
      · intro _
        refine ⟨rfl, rfl, a, ha, hknt, rfl, rfl, ?_, ?_⟩
        · show a.debit - 0 = a.debit
          exact sub_zero _
        · show a.credit - 0 = a.credit
          exact sub_zero _
      · intro hcontra
        exact absurd (hknt ▸ List.mem_map.mpr ⟨a, ha, rfl⟩) hcontra
    · exfalso
      have hrka : keyOf a = k := by simpa [classify_key, pairKey] using hrk
      have hkA : k ∈ keysOf A := hrka ▸ List.mem_map.mpr ⟨a, ha, rfl⟩
      have hkB : k ∈ keysOf B := (hkab.trans hrka) ▸ List.mem_map.mpr ⟨b, hb, rfl⟩
      rcases hone with ⟨_, hb0⟩ | ⟨ha0, _⟩
      · exact List.count_eq_zero.mp hb0 hkB
      · exact List.count_eq_zero.mp ha0 hkA
    · have hknt : keyOf b = k := by simpa [classify_key, pairKey] using hrk
      constructor
      · intro hcontra
        exact absurd (hknt ▸ List.mem_map.mpr ⟨b, hb, rfl⟩) hcontra
      · intro _
        refine ⟨rfl, rfl, b, hb, hknt, rfl, rfl, ?_, ?_⟩
        · show (0 : ℚ) - b.debit = -b.debit
          exact zero_sub _
        · show (0 : ℚ) - b.credit = -b.credit
          exact zero_sub _

/-- Counterexample to C2 as stated, in both failing respects.
First: key `"3000"` is present only in the Focus table with debit 50,
and the resulting row's `debit_diff` is `-50`, not the present side's
value `50`.  Second: key `"4000"` is present in exactly one table (only
Focus) but occurs there twice, and the outer merge keeps both
occurrences, so the result has two rows for that key, not exactly
one. -/
theorem single_side_counterexample :
    (((reconcile_rows [] [⟨Val.strV "3000", 50, 0⟩]).map (fun r => r.debit_diff))
        = [(0 : ℚ) - 50]
      ∧ ((0 : ℚ) - 50 = -50) ∧ ((-50 : ℚ) ≠ 50))
    ∧ ("4000" ∉ keysOf ([] : List SrcRow)
      ∧ "4000" ∈ keysOf [⟨Val.strV "4000", 10, 0⟩, ⟨Val.strV "4000", 10, 0⟩]
      ∧ (reconcile_rows [] [⟨Val.strV "4000", 10, 0⟩, ⟨Val.strV "4000", 10, 0⟩]).countP
          (fun r => r.key == "4000") = 2
      ∧ (2 : ℕ) ≠ 1) := by
  refine ⟨⟨rfl, by norm_num, by norm_num⟩, ⟨by decide, by decide, rfl, by decide⟩⟩

/-- Witness for C2 (amended): key `"3000"` present only in the Xero
table, once. -/
theorem single_side_row_witness :
    ((reconcile_rows [⟨Val.strV "3000", 50, 0⟩] []).countP
      (fun r => r.key == "3000")) = 1 :=
  (single_side_row [⟨Val.strV "3000", 50, 0⟩] [] "3000" (by decide)).1

/-- Line 122 of `app.py`: `(reconciled_df['status'] == 'Mismatch').sum()`. -/
def mismatch_count (t : List MergedRow) : ℕ :=
  t.countP (fun r => r.status == "Mismatch")

/-- Line 123 of `app.py`:
`(reconciled_df['debit_diff'].abs() + reconciled_df['credit_diff'].abs()).sum()`. -/
def total_diff (t : List MergedRow) : ℚ :=
  (t.map (fun r => |r.debit_diff| + |r.credit_diff|)).sum

/-- Round to the nearest integer with ties to even, as `%.2f` float
formatting does on the scaled value. -/
def roundHalfEven (q : ℚ) : ℤ :=
  let f := ⌊q⌋
  let r := q - (f : ℚ)
  if r < 1/2 then f
  else if 1/2 < r then f + 1
  else if f % 2 = 0 then f else f + 1

/-- Two-digit zero-padded rendering of a residue below 100. -/
def pad2 (n : ℕ) : String :=
  if n < 10 then "0" ++ toString n else toString n

/-- Python `f"{x:.2f}"`: fixed-point rendering with exactly two decimal
places (the argument here is a sum of absolute values, hence
nonnegative). -/
def formatFixed2 (q : ℚ) : String :=
  let c := roundHalfEven (100 * q)
  (if c < 0 then "-" else "")
    ++ toString (c.natAbs / 100) ++ "." ++ pad2 (c.natAbs % 100)

/-- Line 124 of `app.py`: the WhatsApp summary f-string. -/
def summary_msg (t : List MergedRow) : String :=
  "Reconciliation done. " ++ toString (mismatch_count t)
    ++ " mismatches found. Total difference: " ++ formatFixed2 (total_diff t) ++ "."

theorem roundHalfEven_intCast (n : ℤ) : roundHalfEven (n : ℚ) = n := by
  unfold roundHalfEven
  simp only [Int.floor_intCast, sub_self]
  rw [if_pos (by norm_num)]

theorem formatFixed2_eval : formatFixed2 (45.5 : ℚ) = "45.50" := by
  unfold formatFixed2
  rw [show (100 : ℚ) * (45.5 : ℚ) = ((4550 : ℤ) : ℚ) by norm_num,
    roundHalfEven_intCast]
  decide

/-- C4. The WhatsApp summary message is exactly
`"Reconciliation done. N mismatches found. Total difference: T."` with
`N` the number of rows whose status is `"Mismatch"` and `T` the sum of
`|debit_diff| + |credit_diff|` over all rows rendered with two decimal
places; on a table with 2 mismatches totalling 45.5 the text is exactly
`"Reconciliation done. 2 mismatches found. Total difference: 45.50."`. -/
theorem summary_message (t : List MergedRow) :
    summary_msg t
      = "Reconciliation done. "
        ++ toString ((t.filter (fun r => r.status == "Mismatch")).length)
        ++ " mismatches found. Total difference: "
        ++ formatFixed2 ((t.map (fun r => |r.debit_diff| + |r.credit_diff|)).sum)
        ++ "."
    ∧ formatFixed2 (45.5 : ℚ) = "45.50"
    ∧ summary_msg
        [⟨"a", 20, 0, 0, 0, 20, 0, "Mismatch"⟩,
         ⟨"b", 0, 0, 25, 0.5, -25, -0.5, "Mismatch"⟩]
      = "Reconciliation done. 2 mismatches found. Total difference: 45.50." := by
  refine ⟨?_, formatFixed2_eval, ?_⟩
  · rw [summary_msg, mismatch_count, total_diff, List.countP_eq_length_filter]
  · rw [summary_msg,
      show total_diff
        [⟨"a", 20, 0, 0, 0, 20, 0, "Mismatch"⟩,
         ⟨"b", 0, 0, 25, 0.5, -25, -0.5, "Mismatch"⟩] = (45.5 : ℚ) by
        norm_num [total_diff, abs_of_nonneg, abs_of_nonpos],
      formatFixed2_eval,
      show mismatch_count
        [⟨"a", 20, 0, 0, 0, 20, 0, "Mismatch"⟩,
         ⟨"b", 0, 0, 25, 0.5, -25, -0.5, "Mismatch"⟩] = 2 by decide]
    decide

/-- The mismatch prompt of `generate_ai_reason` (lines 41–47), built from
the row's key and both sides' debit/credit. -/
def mismatch_prompt (row : MergedRow) : String :=
  "\n    Mismatch found:\n    - Account Code: " ++ row.key
    ++ "\n    - Xero → Debit: " ++ pyFloatStr row.debit_xero
    ++ ", Credit: " ++ pyFloatStr row.credit_xero
    ++ "\n    - Focus → Debit: " ++ pyFloatStr row.debit_focus
    ++ ", Credit: " ++ pyFloatStr row.credit_focus
    ++ "\n    Provide a likely reason in simple terms.\n    "

/-- `generate_ai_reason` (lines 38–57).  The OpenAI chat-completion call
is modelled as an oracle from the prompt to either the returned message
content or the raised exception's text; the `try/except` turns the
latter into the `"AI Error: "` placeholder. -/
def generate_ai_reason (call : String → Except String String)
    (row : MergedRow) : String :=
  if row.status ≠ "Mismatch" then ""
  else
    match call (mismatch_prompt row) with
    | .ok content => pyStrip content
    | .error e => "AI Error: " ++ e

/-- Line 107 of `app.py`:
`reconciled_df.apply(generate_ai_reason, axis=1)`. -/
def ai_explanations (call : String → Except String String)
    (t : List MergedRow) : List String :=
  t.map (generate_ai_reason call)

/-- C5. A failing service call for one row never aborts the batch: the
explanation column is produced for every row, the failing row gets the
`"AI Error: "` placeholder, and any row's explanation depends only on
the service outcome for that row's own prompt. -/
theorem ai_failure_isolated (call : String → Except String String)
    (rows : List MergedRow) (row : MergedRow) (e : String)
    (hmem : row ∈ rows) (hst : row.status = "Mismatch")
    (hfail : call (mismatch_prompt row) = Except.error e) :
    (ai_explanations call rows).length = rows.length
    ∧ generate_ai_reason call row = "AI Error: " ++ e
    ∧ ∀ (call2 : String → Except String String) (row2 : MergedRow),
        call2 (mismatch_prompt row2) = call (mismatch_prompt row2) →
        generate_ai_reason call2 row2 = generate_ai_reason call row2 := by
  refine ⟨List.length_map _ _, ?_, ?_⟩
  · simp only [generate_ai_reason]
    rw [if_neg (not_not_intro hst), hfail]
  · intro call2 row2 hagree
    simp only [generate_ai_reason]
    rw [hagree]

/-- Witness for C5: a one-row batch whose service call raises `"boom"`. -/
theorem ai_failure_isolated_witness :
    generate_ai_reason (fun _ => Except.error "boom")
      ⟨"1", 5, 0, 0, 0, 5, 0, "Mismatch"⟩ = "AI Error: " ++ "boom" :=
  (ai_failure_isolated (fun _ => Except.error "boom")
    [⟨"1", 5, 0, 0, 0, 5, 0, "Mismatch"⟩] ⟨"1", 5, 0, 0, 0, 5, 0, "Mismatch"⟩
    "boom" (List.mem_singleton.mpr rfl) rfl rfl).2.1

/-- Counterexample to C6 as stated: when the service replies with empty
content for a mismatched row, `generate_ai_reason` returns the empty
string, so a Mismatched row's explanation is not always non-empty. -/
theorem explanation_nonempty_counterexample :
    (⟨"1", 5, 0, 0, 0, 5, 0, "Mismatch"⟩ : MergedRow).status = "Mismatch"
    ∧ generate_ai_reason (fun _ => Except.ok "")
        ⟨"1", 5, 0, 0, 0, 5, 0, "Mismatch"⟩ = "" :=
  ⟨rfl, rfl⟩

/-- C6 (amended). A row whose status is not `"Mismatch"` gets the empty
explanation and the result is independent of the service oracle (no
external call is observable); a `"Mismatch"` row gets the `"AI Error: "`
placeholder — always non-empty — when the call fails, and the stripped
returned content — empty only if the service returned only whitespace —
when it succeeds. -/
theorem explanation_rule (call : String → Except String String)
    (row : MergedRow) :
    (row.status ≠ "Mismatch" →
      generate_ai_reason call row = ""
      ∧ ∀ call2 : String → Except String String,
          generate_ai_reason call2 row = generate_ai_reason call row)
    ∧ (row.status = "Mismatch" →
      (∀ e, call (mismatch_prompt row) = Except.error e →
        generate_ai_reason call row = "AI Error: " ++ e
        ∧ generate_ai_reason call row ≠ "")
      ∧ (∀ s, call (mismatch_prompt row) = Except.ok s →
        generate_ai_reason call row = pyStrip s)) := by
  constructor
  · intro hs
    constructor
    · simp only [generate_ai_reason]
      rw [if_pos hs]
    · intro call2
      simp only [generate_ai_reason]
      rw [if_pos hs, if_pos hs]
  · intro hs
    constructor
    · intro e hfail
      have he : generate_ai_reason call row = "AI Error: " ++ e := by
        simp only [generate_ai_reason]
        rw [if_neg (not_not_intro hs), hfail]
      refine ⟨he, ?_⟩
      rw [he]
      intro hcontra
      have hlen := congrArg String.length hcontra
      rw [String.length_append] at hlen
      rw [show ("AI Error: ").length = 10 from rfl,
        show ("" : String).length = 0 from rfl] at hlen
      omega
    · intro s hok
      simp only [generate_ai_reason]
      rw [if_neg (not_not_intro hs), hok]

/-- Witness for C6 (amended): a mismatched row with a failing call gets
the non-empty placeholder. -/
theorem explanation_rule_witness :
    generate_ai_reason (fun _ => Except.error "rate limit")
      ⟨"2", 3, 0, 0, 0, 3, 0, "Mismatch"⟩ = "AI Error: " ++ "rate limit"
    ∧ generate_ai_reason (fun _ => Except.error "rate limit")
      ⟨"2", 3, 0, 0, 0, 3, 0, "Mismatch"⟩ ≠ "" :=
  ((explanation_rule (fun _ => Except.error "rate limit")
    ⟨"2", 3, 0, 0, 0, 3, 0, "Mismatch"⟩).2 rfl).1 "rate limit" rfl

/-- Line 79 of `app.py`: `reconciled_df.to_csv(index=False)` on the
modelled columns. -/
def to_csv (t : List MergedRow) : String :=
  "key,debit_xero,credit_xero,debit_focus,credit_focus,debit_diff,credit_diff,status\n"
    ++ String.join (t.map (fun r =>
        r.key ++ "," ++ pyFloatStr r.debit_xero ++ "," ++ pyFloatStr r.credit_xero
          ++ "," ++ pyFloatStr r.debit_focus ++ "," ++ pyFloatStr r.credit_focus
          ++ "," ++ pyFloatStr r.debit_diff ++ "," ++ pyFloatStr r.credit_diff
          ++ "," ++ r.status ++ "\n"))

/-- The assistant prompt of `ask_bot` (lines 80–85). -/
def ask_prompt (question : String) (t : List MergedRow) : String :=
  "\n    You are a financial reconciliation assistant.\n    Data:\n"
    ++ to_csv t ++ "\n    Question: " ++ question ++ "\n    Answer shortly:\n    "

/-- `ask_bot` (lines 78–92).  Note: unlike `generate_ai_reason`, there
is no `try/except` here — a failing service call propagates out of the
function instead of being converted into answer text. -/
def ask_bot (call : String → Except String String)
    (question : String) (t : List MergedRow) : Except String String :=
  match call (ask_prompt question t) with
  | .ok answer => .ok (pyStrip answer)
  | .error e => .error e

/-- Counterexample to C8 as stated: with a failing service call,
`ask_bot` yields the error outcome, not an answer string describing the
error. -/
theorem ask_bot_counterexample :
    ask_bot (fun _ => Except.error "quota exceeded") "q" []
      = Except.error "quota exceeded"
    ∧ (ask_bot (fun _ => Except.error "quota exceeded") "q" []).isOk = false :=
  ⟨rfl, rfl⟩

/-- C8 (amended). When the service call made for a free-form assistant
question fails, `ask_bot` propagates that failure unchanged (no handler
converts it into an answer string). -/
theorem ask_bot_propagates (call : String → Except String String)
    (question : String) (t : List MergedRow) (e : String)
    (hfail : call (ask_prompt question t) = Except.error e) :
    ask_bot call question t = Except.error e := by
  simp only [ask_bot, hfail]

/-- Witness for C8 (amended). -/
theorem ask_bot_propagates_witness :
    ask_bot (fun _ => Except.error "boom") "total?" [] = Except.error "boom" :=
  ask_bot_propagates (fun _ => Except.error "boom") "total?" [] "boom" rfl

/-- A pandas DataFrame as `reconcile_data` receives it: column names and
rows of cell values (one cell per column). -/
structure PyTable where
  cols : List String
  rows : List (List Val)
deriving Repr, DecidableEq

/-- Lines 27–28 of `app.py`: in-place normalization of every column
name. -/
def normalizeCols (t : PyTable) : PyTable :=
  { t with cols := t.cols.map normName }

/-- `df[c]`: the values of column `c`, or `none` (a raised `KeyError`)
when the column is absent. -/
def colVals (t : PyTable) (c : String) : Option (List Val) :=
  match t.cols.findIdx? (fun s => s == c) with
  | none => none
  | some i => some (t.rows.map (fun row => row.getD i (Val.strV "")))

/-- `df[c] = vs`: overwrite column `c` if present, else append it. -/
def setCol (t : PyTable) (c : String) (vs : List Val) : PyTable :=
  match t.cols.findIdx? (fun s => s == c) with
  | none => { cols := t.cols ++ [c], rows := (t.rows.zip vs).map (fun p => p.1 ++ [p.2]) }
  | some i => { cols := t.cols, rows := (t.rows.zip vs).map (fun p => p.1.set i p.2) }

/-- Lines 29–30: the key column `astype(str).str.strip()`. -/
def keyColumn (vs : List Val) : List Val :=
  vs.map (fun v => Val.strV (pyStrip (pyStr v)))

/-- A numeric cell as a rational; `none` models a non-numeric cell whose
subtraction raises a `TypeError`. -/
def asNum : Val → Option ℚ
  | .intV n => some (n : ℚ)
  | .floatV q => some q
  | .strV _ => none

/-- A whole column as rationals. -/
def numCol (t : PyTable) (c : String) : Option (List ℚ) :=
  (colVals t c).bind (fun vs => vs.mapM asNum)

/-- The typed rows built from a key column and numeric debit/credit
columns. -/
def mkRows (ks : List Val) (ds cs : List ℚ) : List SrcRow :=
  List.zipWith (fun k dc => SrcRow.mk k dc.1 dc.2) ks (ds.zip cs)

/-- Errors `reconcile_data` can raise. -/
inductive PyErr where
  | keyError : String → PyErr
  | typeError : PyErr
deriving Repr, DecidableEq

/-- The `pd.merge` on line 31 executes iff both key-column reads of
lines 29–30 succeeded first. -/
def join_attempted (xero focus : PyTable) : Bool :=
  (colVals (normalizeCols xero) "account_code").isSome
    && (colVals (normalizeCols focus) "gl_code").isSome

/-- `reconcile_data` (lines 26–36) over generic tables: normalize the
column names, read the key columns (`KeyError` before the join when one
is missing), merge on the trimmed-string key, then read the suffixed
debit/credit columns.  `pd.merge` suffixes an overlapping column name
with `_xero`/`_focus` only when it is present in both tables, so
`merged['debit_xero']` exists iff both sides have `debit`; otherwise a
`KeyError` is raised after the join, on line 33/34.  Then `fillna(0)`,
the diffs and the status lambda. -/
def reconcile_data (xero focus : PyTable) : Except PyErr (List MergedRow) :=
  let x := normalizeCols xero
  let f := normalizeCols focus
  match colVals x "account_code" with
  | none => .error (.keyError "account_code")
  | some xkeys =>
    match colVals f "gl_code" with
    | none => .error (.keyError "gl_code")
    | some fkeys =>
      if ¬ ("debit" ∈ x.cols ∧ "debit" ∈ f.cols) then .error (.keyError "debit_xero")
      else if ¬ ("credit" ∈ x.cols ∧ "credit" ∈ f.cols) then .error (.keyError "credit_xero")
      else
        match numCol x "debit", numCol x "credit", numCol f "debit", numCol f "credit" with
        | some dx, some cx, some dfo, some cfo =>
            .ok (reconcile_rows (mkRows xkeys dx cx) (mkRows fkeys dfo cfo))
        | _, _, _, _ => .error .typeError

theorem findIdx_isSome_iff (l : List String) (c : String) :
    (l.findIdx? (fun s => s == c)).isSome = true ↔ c ∈ l := by
  induction l with
  | nil => simp [List.findIdx?]
  | cons a t ih =>
    rw [List.findIdx?_cons]
    by_cases h : (a == c) = true
    · rw [if_pos h]
      constructor
      · intro _
        exact List.mem_cons.mpr (Or.inl (eq_of_beq h).symm)
      · intro _
        rfl
    · rw [if_neg h, List.findIdx?_succ]
      have hca : ¬ c = a := fun he => h (beq_iff_eq.mpr he.symm)
      constructor
      · intro hs
        refine List.mem_cons.mpr (Or.inr (ih.mp ?_))
        cases hfi : List.findIdx? (fun s => s == c) t with
        | none => rw [hfi] at hs; simp at hs
        | some i => rfl
      · intro hm
        rcases List.mem_cons.mp hm with he | hm2
        · exact absurd he hca
        · have hsome := ih.mpr hm2
          cases hfi : List.findIdx? (fun s => s == c) t with
          | none => rw [hfi] at hsome; simp at hsome
          | some i => rfl

theorem colVals_isSome_iff (t : PyTable) (c : String) :
    (colVals t c).isSome = true ↔ c ∈ t.cols := by
  rw [← findIdx_isSome_iff t.cols c, colVals]
  cases t.cols.findIdx? (fun s => s == c) <;> rfl

/-- Counterexample to C7 as stated: with the Focus table missing its
`debit` column, `reconcile_data` does fail — but only after the join was
attempted (`merged['debit_xero']` raises on line 33), not before it. -/
theorem missing_column_counterexample :
    reconcile_data
        ⟨["Account Code", "Debit", "Credit"], [[Val.intV 1, Val.intV 10, Val.intV 0]]⟩
        ⟨["GL Code", "Credit"], [[Val.intV 1, Val.intV 0]]⟩
      = Except.error (PyErr.keyError "debit_xero")
    ∧ join_attempted
        ⟨["Account Code", "Debit", "Credit"], [[Val.intV 1, Val.intV 10, Val.intV 0]]⟩
        ⟨["GL Code", "Credit"], [[Val.intV 1, Val.intV 0]]⟩ = true :=
  ⟨rfl, rfl⟩

/-- C7 (amended). A missing required column always makes
`reconcile_data` fail, so no (partial) reconciled table is produced; a
missing key column (`account_code`/`gl_code`) is rejected before the
join is attempted, while a missing `debit`/`credit` column only raises
after the join. -/
theorem missing_column_rejected (xero focus : PyTable)
    (hmiss : ¬ ("account_code" ∈ (normalizeCols xero).cols
        ∧ "gl_code" ∈ (normalizeCols focus).cols
        ∧ "debit" ∈ (normalizeCols xero).cols ∧ "debit" ∈ (normalizeCols focus).cols
        ∧ "credit" ∈ (normalizeCols xero).cols ∧ "credit" ∈ (normalizeCols focus).cols)) :
    (∃ e, reconcile_data xero focus = Except.error e)
    ∧ (("account_code" ∉ (normalizeCols xero).cols
        ∨ "gl_code" ∉ (normalizeCols focus).cols)
       → join_attempted xero focus = false) := by
  constructor
  · rcases hx : colVals (normalizeCols xero) "account_code" with _ | xkeys
    · exact ⟨.keyError "account_code", by simp only [reconcile_data, hx]⟩
    · rcases hf : colVals (normalizeCols focus) "gl_code" with _ | fkeys
      · exact ⟨.keyError "gl_code", by simp only [reconcile_data, hx, hf]⟩
      · by_cases hd : ("debit" ∈ (normalizeCols xero).cols ∧ "debit" ∈ (normalizeCols focus).cols)
        · by_cases hc : ("credit" ∈ (normalizeCols xero).cols ∧ "credit" ∈ (normalizeCols focus).cols)
          · exfalso
            apply hmiss
            refine ⟨?_, ?_, hd.1, hd.2, hc.1, hc.2⟩
            · exact (colVals_isSome_iff _ _).mp (by rw [hx]; rfl)
            · exact (colVals_isSome_iff _ _).mp (by rw [hf]; rfl)
          · refine ⟨.keyError "credit_xero", ?_⟩
            simp only [reconcile_data, hx, hf]
            rw [if_neg (not_not_intro hd), if_pos hc]
        · refine ⟨.keyError "debit_xero", ?_⟩
          simp only [reconcile_data, hx, hf]
          rw [if_pos hd]
  · intro hor
    rw [join_attempted]
    rcases hor with h | h
    · have e1 : (colVals (normalizeCols xero) "account_code").isSome = false := by
        cases he : (colVals (normalizeCols xero) "account_code").isSome
        · rfl
        · exact absurd ((colVals_isSome_iff _ _).mp he) h
      rw [e1, Bool.false_and]
    · have e2 : (colVals (normalizeCols focus) "gl_code").isSome = false := by
        cases he : (colVals (normalizeCols focus) "gl_code").isSome
        · rfl
        · exact absurd ((colVals_isSome_iff _ _).mp he) h
      rw [e2, Bool.and_false]

/-- Witness for C7 (amended): the Xero table has no key column at all. -/
theorem missing_column_rejected_witness :
    (∃ e, reconcile_data ⟨["Code"], []⟩ ⟨["GL Code"], []⟩ = Except.error e)
    ∧ (("account_code" ∉ (normalizeCols ⟨["Code"], []⟩).cols
        ∨ "gl_code" ∉ (normalizeCols ⟨["GL Code"], []⟩).cols)
       → join_attempted ⟨["Code"], []⟩ ⟨["GL Code"], []⟩ = false) :=
  missing_column_rejected ⟨["Code"], []⟩ ⟨["GL Code"], []⟩ (by decide)

/-- The caller's `xero_df` object after `reconcile_data` returns or
raises: line 27 rewrote its column names in place, and line 29 assigned
the `key` column (when the `account_code` access did not raise). -/
def reconcile_post_xero (xero : PyTable) : PyTable :=
  match colVals (normalizeCols xero) "account_code" with
  | none => normalizeCols xero
  | some ks => setCol (normalizeCols xero) "key" (keyColumn ks)

/-- The caller's `focus_df` object after the call: normalized in place
by line 28; the `key` column of line 30 is assigned only when line 29
did not raise. -/
def reconcile_post_focus (xero focus : PyTable) : PyTable :=
  match colVals (normalizeCols xero) "account_code" with
  | none => normalizeCols focus
  | some _ =>
    match colVals (normalizeCols focus) "gl_code" with
    | none => normalizeCols focus
    | some ks => setCol (normalizeCols focus) "key" (keyColumn ks)

theorem setCol_cols_of_not_mem (t : PyTable) (c : String) (vs : List Val)
    (h : c ∉ t.cols) : (setCol t c vs).cols = t.cols ++ [c] := by
  rw [setCol]
  cases hfi : t.cols.findIdx? (fun s => s == c) with
  | none => rfl
  | some i =>
    exfalso
    exact h ((findIdx_isSome_iff t.cols c).mp (by rw [hfi]; rfl))

/-- C10. `reconcile_data` mutates both inputs in place: on a call whose
key-column accesses succeed, each caller-visible table ends with every
column name normalized and a new `key` column appended — so the caller's
original objects are changed whenever that differs from their original
column lists. -/
theorem inputs_mutated (xero focus : PyTable)
    (hx : "account_code" ∈ (normalizeCols xero).cols)
    (hf : "gl_code" ∈ (normalizeCols focus).cols)
    (hkx : "key" ∉ (normalizeCols xero).cols)
    (hkf : "key" ∉ (normalizeCols focus).cols) :
    (reconcile_post_xero xero).cols = xero.cols.map normName ++ ["key"]
    ∧ (reconcile_post_focus xero focus).cols = focus.cols.map normName ++ ["key"]
    ∧ (xero.cols.map normName ++ ["key"] ≠ xero.cols →
        reconcile_post_xero xero ≠ xero) := by
  have hxs : (colVals (normalizeCols xero) "account_code").isSome = true :=
    (colVals_isSome_iff _ _).mpr hx
  have hfs : (colVals (normalizeCols focus) "gl_code").isSome = true :=
    (colVals_isSome_iff _ _).mpr hf
  rcases Option.isSome_iff_exists.mp hxs with ⟨xk, hxk⟩
  rcases Option.isSome_iff_exists.mp hfs with ⟨fk, hfk⟩
  have h1 : (reconcile_post_xero xero).cols = xero.cols.map normName ++ ["key"] := by
    rw [reconcile_post_xero, hxk]
    exact setCol_cols_of_not_mem _ _ _ hkx
  refine ⟨h1, ?_, ?_⟩
  · rw [reconcile_post_focus, hxk, hfk]
    exact setCol_cols_of_not_mem _ _ _ hkf
  · intro hne hcontra
    exact hne (by rw [← h1, hcontra])

/-- Witness for C10: a table with headers `"Account Code"`, `"Debit"`,
`"Credit"` is observably rewritten. -/
theorem inputs_mutated_witness :
    (reconcile_post_xero ⟨["Account Code", "Debit", "Credit"], [[Val.intV 7, Val.intV 1, Val.intV 2]]⟩).cols
      = ["Account Code", "Debit", "Credit"].map normName ++ ["key"]
    ∧ (reconcile_post_focus ⟨["Account Code", "Debit", "Credit"], [[Val.intV 7, Val.intV 1, Val.intV 2]]⟩
        ⟨["GL Code", "Debit", "Credit"], [[Val.intV 7, Val.intV 1, Val.intV 2]]⟩).cols
      = ["GL Code", "Debit", "Credit"].map normName ++ ["key"]
    ∧ (["Account Code", "Debit", "Credit"].map normName ++ ["key"]
          ≠ ["Account Code", "Debit", "Credit"] →
        reconcile_post_xero ⟨["Account Code", "Debit", "Credit"], [[Val.intV 7, Val.intV 1, Val.intV 2]]⟩
          ≠ ⟨["Account Code", "Debit", "Credit"], [[Val.intV 7, Val.intV 1, Val.intV 2]]⟩) :=
  inputs_mutated
    ⟨["Account Code", "Debit", "Credit"], [[Val.intV 7, Val.intV 1, Val.intV 2]]⟩
    ⟨["GL Code", "Debit", "Credit"], [[Val.intV 7, Val.intV 1, Val.intV 2]]⟩
    (by decide) (by decide) (by decide) (by decide)

theorem pyFloatStr_intCast (n : ℤ) (h : 0 ≤ n) :
    pyFloatStr ((n : ℚ)) = toString n ++ ".0" := by
  unfold pyFloatStr
  have habs : |(n : ℚ)| = (n : ℚ) := abs_of_nonneg (by exact_mod_cast h)
  simp only [habs, Int.floor_intCast, sub_self]
  rw [show fracDigits 17 0 = "" from rfl]
  rw [if_pos rfl, if_neg (by exact_mod_cast not_lt.mpr h)]
  rw [show ("" : String) ++ toString n = toString n from String.empty_append (toString n)]
  rw [String.append_assoc]
  rfl

theorem mergePairs_singleton_ne (a b : SrcRow) (h : keyOf b ≠ keyOf a) :
    mergePairs [a] [b] = [(some a, none), (none, some b)] := by
  have h1 : matchesOf [b] a = [] := by
    simp [matchesOf, h]
  have h2 : keyOf a ≠ keyOf b := fun he => h he.symm
  rw [mergePairs]
  simp [h1, h2]

/-- C9. Join keys are the trimmed Python-`str` renderings of the key
cells: two rows are merge-matched iff those strings are equal, and an
integer key `1000` renders as `"1000"` while a float key `1000.0`
renders as `"1000.0"`, so they produce two separate reconciled rows. -/
theorem string_key_join (A B : List SrcRow) (a b : SrcRow) :
    ((some a, some b) ∈ mergePairs A B ↔ (a ∈ A ∧ b ∈ B ∧ keyOf b = keyOf a))
    ∧ keyOf ⟨Val.intV 1000, 500, 0⟩ = "1000"
    ∧ keyOf ⟨Val.floatV 1000, 500, 0⟩ = "1000.0"
    ∧ (reconcile_rows [⟨Val.intV 1000, 500, 0⟩] [⟨Val.floatV 1000, 500, 0⟩]).length = 2 := by
  have hint : keyOf ⟨Val.intV 1000, 500, 0⟩ = "1000" := by decide
  have hflt : keyOf ⟨Val.floatV 1000, 500, 0⟩ = "1000.0" := by
    show pyStrip (pyFloatStr ((1000 : ℚ))) = "1000.0"
    rw [show ((1000 : ℚ)) = (((1000 : ℤ) : ℚ)) by norm_num,
      pyFloatStr_intCast 1000 (by norm_num)]
    decide
  refine ⟨?_, hint, hflt, ?_⟩
  · constructor
    · intro hmemb
      rcases mem_mergePairs.mp hmemb with ⟨a2, _, _, heq⟩ | ⟨a2, ha2, b2, hb2, hk2, heq⟩
        | ⟨b2, _, _, heq⟩
      · cases heq
      · cases heq
        exact ⟨ha2, hb2, hk2⟩
      · cases heq
    · rintro ⟨ha, hb, hk⟩
      exact mem_mergePairs.mpr (Or.inr (Or.inl ⟨a, ha, b, hb, hk, rfl⟩))
  · rw [reconcile_rows,
      mergePairs_singleton_ne _ _ (by rw [hint, hflt]; decide)]
    rfl

/-- Witness for C9, at a shared concrete key. -/
theorem string_key_join_witness :
    (some (⟨Val.strV "9", 1, 0⟩ : SrcRow), some (⟨Val.strV "9", 2, 0⟩ : SrcRow))
        ∈ mergePairs [⟨Val.strV "9", 1, 0⟩] [⟨Val.strV "9", 2, 0⟩]
      ↔ ((⟨Val.strV "9", 1, 0⟩ : SrcRow) ∈ [(⟨Val.strV "9", 1, 0⟩ : SrcRow)]
          ∧ (⟨Val.strV "9", 2, 0⟩ : SrcRow) ∈ [(⟨Val.strV "9", 2, 0⟩ : SrcRow)]
          ∧ keyOf ⟨Val.strV "9", 2, 0⟩ = keyOf ⟨Val.strV "9", 1, 0⟩) :=
  (string_key_join [⟨Val.strV "9", 1, 0⟩] [⟨Val.strV "9", 2, 0⟩]
    ⟨Val.strV "9", 1, 0⟩ ⟨Val.strV "9", 2, 0⟩).1
